import Mathlib

/-!
Shallow embedding of `federated_content_connector/course_metadata_importer.py`
(class `CourseMetadataImporter`) and proofs about its operations.

JSON objects whose fields are strings-or-null are modelled as association
lists `List (String × Option String)`; Python `dict.get` becomes `dictLookup`
(outer `Option` = key presence, inner `Option` = JSON null), `dict[k] = v`
becomes `dictInsert`, and code that can raise becomes `Except String`.
-/

namespace FedContentConnector

/-- A JSON object with string-or-null fields, e.g. a seat dictionary. -/
abbrev JDict := List (String × Option String)

/-- `d.get(k)`-style lookup in an association list: first binding wins,
`none` when the key is absent. -/
def dictLookup {β : Type} : List (String × β) → String → Option β
  | [], _ => none
  | (k1, v) :: rest, k => if k1 = k then some v else dictLookup rest k

/-- `d[k] = v` on a Python dict: overwrite in place when the key exists
(keeping its position), otherwise append a new binding at the end.
Also models Django `update_or_create` (insert if absent, full overwrite
of the stored value otherwise). -/
def dictInsert {β : Type} : List (String × β) → String → β → List (String × β)
  | [], k, v => [(k, v)]
  | (k1, v1) :: rest, k, v =>
    if k1 = k then (k, v) :: rest else (k1, v1) :: dictInsert rest k v

/-- Modelled from the spec: the `CourseMode` enrollment-mode slugs come from
an external library (not part of this repository); the spec fixes the
priority order verified > professional > no-id-professional >
unpaid-executive-education > audit. The list itself is `BEST_MODE_ORDER`
from the source. -/
def BEST_MODE_ORDER : List String :=
  ["verified", "professional", "no-id-professional", "unpaid-executive-education", "audit"]

/-- The inner `sort_key` of `find_best_mode_seat`: `mode['type']` (raises
`KeyError` when the key is absent, hence `Except`); a known mode gets weight
`len(BEST_MODE_ORDER) - BEST_MODE_ORDER.index(type)`, anything else weight 0.
A JSON-null type is not a member of the order list, so it also gets 0. -/
def sort_key (mode : JDict) : Except String Nat :=
  match dictLookup mode "type" with
  | none => .error "KeyError: type"
  | some mode_type =>
    match mode_type with
    | some t =>
      if t ∈ BEST_MODE_ORDER then
        .ok (BEST_MODE_ORDER.length - BEST_MODE_ORDER.indexOf t)
      else
        .ok 0
    | none => .ok 0

/-- CPython's `sorted(_, key=...)` first computes the key of every element in
list order (so a raising key aborts the whole sort); this computes the
decorated list. -/
def seatSortKeys : List JDict → Except String (List (Nat × JDict))
  | [] => .ok []
  | s :: rest => do
    let w ← sort_key s
    let ks ← seatSortKeys rest
    .ok ((w, s) :: ks)

/-- Insert into a list already sorted by `k` descending, after every element
with a strictly larger key and before the first element with key `≤ k x`
(this placement matches the stability of Python `sorted(..., reverse=True)`:
an earlier element stays before later elements with an equal key). -/
def insertDesc {α : Type} (k : α → Nat) (x : α) : List α → List α
  | [] => [x]
  | y :: ys => if k y > k x then y :: insertDesc k x ys else x :: y :: ys

/-- Stable descending insertion sort, modelling `sorted(seats, key=sort_key,
reverse=True)`. -/
def sortDesc {α : Type} (k : α → Nat) : List α → List α
  | [] => []
  | x :: xs => insertDesc k x (sortDesc k xs)

/-- `find_best_mode_seat(seats)`: `seats` may be JSON null (`none`), in which
case Python raises `TypeError` when `sorted` iterates it; otherwise sort the
seats by `sort_key` descending (stable) and return the first, or `None` when
the list is empty. -/
def find_best_mode_seat : Option (List JDict) → Except String (Option JDict)
  | none => .error "TypeError: NoneType object is not iterable"
  | some ss =>
    match seatSortKeys ss with
    | .error e => .error e
    | .ok keyed =>
      match sortDesc (fun p => p.1) keyed with
      | [] => .ok none
      | p :: _ => .ok (some p.2)

/-- Spec-side priority of a seat dictionary, written from the spec's fixed
order verified > professional > no-id-professional >
unpaid-executive-education > audit, with unknown or missing or null types
lowest. -/
def seatPriority (s : JDict) : Nat :=
  match dictLookup s "type" with
  | some (some t) =>
    if t = "verified" then 5
    else if t = "professional" then 4
    else if t = "no-id-professional" then 3
    else if t = "unpaid-executive-education" then 2
    else if t = "audit" then 1
    else 0
  | _ => 0

/-- Spec-side selection: the first element of the list attaining the maximal
key (ties between equal keys resolved by first occurrence in the input). -/
def firstMaxBy {α : Type} (k : α → Nat) : List α → Option α
  | [] => none
  | x :: xs =>
    match firstMaxBy k xs with
    | none => some x
    | some y => if k y > k x then some y else some x

/-! ### Data model of the remote course payload and the local store -/

/-- The `product_source` sub-object; `slug` is read with `.get('slug')`. -/
structure ProductSource where
  slug : Option String
deriving DecidableEq

/-- The `additional_metadata` sub-object used for exec-ed/bootcamp courses. -/
structure AdditionalMetadata where
  registration_deadline : Option String
  start_date : Option String
  end_date : Option String
deriving DecidableEq

/-- A `course_runs[]` element: its `key`, its `seats` (JSON null or a list of
seat dictionaries), and `start`/`end` dates (`end` is a Lean keyword, hence
`end_`). -/
structure CourseRun where
  key : String
  seats : Option (List JDict)
  start : Option String
  end_ : Option String
deriving DecidableEq

/-- A remote course record from the `/courses/` response. -/
structure CourseMetadata where
  uuid : String
  course_type : Option String
  product_source : Option ProductSource
  course_runs : List CourseRun
  additional_metadata : Option AdditionalMetadata
deriving DecidableEq

/-- The fields of one local `CourseDetails` record. -/
structure CourseData where
  course_type : String
  product_source : Option String
  enroll_by : Option String
  start_date : Option String
  end_date : Option String
deriving DecidableEq

/-- Modelled from the spec: `EXEC_ED_COURSE_TYPE` is imported from this
repository's `constants` module, which is not under `src/`; the spec's
worked example fixes the value "executive-education-2u". -/
def EXEC_ED_COURSE_TYPE : String := "executive-education-2u"

/-- Modelled from the spec: `BOOTCAMP_2U` comes from the same missing
`constants` module; the spec only names the bootcamp course type, so the
value is its natural slug. -/
def BOOTCAMP_2U : String := "bootcamp-2u"

/-- `find_attr(iterable, attr_name, attr_value)`: linear scan for the first
item whose attribute equals the value, `None` otherwise; `item[attr_name]`
becomes the accessor function `attr`. -/
def find_attr {γ δ : Type} [DecidableEq δ] (attr : γ → δ) (attr_value : δ) : List γ → Option γ
  | [] => none
  | item :: rest => if attr item = attr_value then some item else find_attr attr attr_value rest

/-- The body of the `process_courses_details` loop for one
`(courserun_key, course_uuid)` pair: `.ok none` models `continue` (no record
produced for this key), `.error` models a raised exception. -/
def processOne (courses_details : List CourseMetadata) (courserun_key course_uuid : String) :
    Except String (Option CourseData) :=
  match find_attr (fun c => c.uuid) course_uuid courses_details with
  | none => .ok none
  | some course_metadata =>
    let course_type := course_metadata.course_type.getD ""
    let product_source : Option String :=
      match course_metadata.product_source with
      | none => some ""
      | some ps => ps.slug
    if course_type = EXEC_ED_COURSE_TYPE ∨ course_type = BOOTCAMP_2U then
      match course_metadata.additional_metadata with
      | some am =>
        .ok (some { course_type := course_type, product_source := product_source,
                    enroll_by := am.registration_deadline,
                    start_date := am.start_date, end_date := am.end_date })
      | none =>
        .ok (some { course_type := course_type, product_source := product_source,
                    enroll_by := none, start_date := none, end_date := none })
    else
      match find_attr (fun r => r.key) courserun_key course_metadata.course_runs with
      | none => .ok none
      | some course_run =>
        match find_best_mode_seat course_run.seats with
        | .error e => .error e
        | .ok seat =>
          let enroll_by :=
            match seat with
            | some s => (dictLookup s "upgrade_deadline").join
            | none => none
          .ok (some { course_type := course_type, product_source := product_source,
                      enroll_by := enroll_by,
                      start_date := course_run.start, end_date := course_run.end_ })

/-- The `for courserun_key, course_uuid in courserun_with_course_uuids.items()`
loop of `process_courses_details`, building the `courses` dict. -/
def process_courses_details_loop (courses_details : List CourseMetadata) :
    List (String × String) → List (String × CourseData) → Except String (List (String × CourseData))
  | [], courses => .ok courses
  | (courserun_key, course_uuid) :: rest, courses =>
    match processOne courses_details courserun_key course_uuid with
    | .error e => .error e
    | .ok none => process_courses_details_loop courses_details rest courses
    | .ok (some course_data) =>
      process_courses_details_loop courses_details rest (dictInsert courses courserun_key course_data)

/-- `process_courses_details(courses_details, courserun_with_course_uuids)`. -/
def process_courses_details (courses_details : List CourseMetadata)
    (courserun_with_course_uuids : List (String × String)) :
    Except String (List (String × CourseData)) :=
  process_courses_details_loop courses_details courserun_with_course_uuids []

/-- `store_courses_details`: one `CourseDetails.objects.update_or_create`
(insert-or-full-overwrite, here `dictInsert`) per processed course-run key,
applied to the store `db`. -/
def store_courses_details (courses_details : List (String × CourseData))
    (db : List (String × CourseData)) : List (String × CourseData) :=
  match courses_details with
  | [] => db
  | (courserun_key, course_detail) :: rest =>
    store_courses_details rest (dictInsert db courserun_key course_detail)

/-- One element of the parsed `/course_runs/` response in `fetch_course_uuids`:
`result.get('key')` may be absent (hence `Option`); `course_uuid` is typed as
present, per the response schema. -/
structure CourseRunResult where
  key : Option String
  course_uuid : String
deriving DecidableEq

/-- The result loop of `fetch_course_uuids`: skip any result whose key is not
in the requested `courserun_keys` (a JSON-null key is never a member), else
record `courserun_key -> course_uuid`. The HTTP call and URL building are
elided; `results` is the parsed response. -/
def fetch_course_uuids_loop (courserun_keys : List String) :
    List CourseRunResult → List (String × String) → List (String × String)
  | [], acc => acc
  | result :: rest, acc =>
    match result.key with
    | some courserun_key =>
      if courserun_key ∈ courserun_keys then
        fetch_course_uuids_loop courserun_keys rest (dictInsert acc courserun_key result.course_uuid)
      else
        fetch_course_uuids_loop courserun_keys rest acc
    | none => fetch_course_uuids_loop courserun_keys rest acc

/-- `fetch_course_uuids`: the courserun-key → course-uuid map. -/
def fetch_course_uuids (courserun_keys : List String) (results : List CourseRunResult) :
    List (String × String) :=
  fetch_course_uuids_loop courserun_keys results []

/-- `chunks(keys, chunk_size)`: Python `range(0, len(keys), chunk_size)` (for a
positive step) visits `ceil(len(keys)/chunk_size)` indices `0, chunk_size, ...`;
each yields the slice `keys[i:i + chunk_size]`. -/
def chunks {α : Type} (keys : List α) (chunk_size : Nat := 50) : List (List α) :=
  (List.range' 0 ((keys.length + chunk_size - 1) / chunk_size) chunk_size).map
    fun i => (keys.drop i).take chunk_size

/-! ### HTTP calls, retry and pagination -/

/-- An HTTP response; `ok` is whether the status code is a success (2xx). -/
structure HttpResponse where
  ok : Bool
deriving DecidableEq

/-- `response.raise_for_status()`: raises `HTTPError` on a non-2xx status. -/
def raise_for_status (response : HttpResponse) : Except String HttpResponse :=
  if response.ok then .ok response else .error "HTTPError"

/-- The `backoff.on_exception(backoff.expo, Exception, max_tries=3)` wrapper
around `client.get` in `get_response_from_api`. `client n` is the outcome of
the n-th underlying call (`.error` = that call raised). Returns the wrapper's
outcome and the number of underlying calls made; the backoff sleep times are
timing behavior and are not modelled. -/
def backoff_retry (client : Nat → Except String HttpResponse) :
    Nat → Nat → Except String HttpResponse × Nat
  | attempt, 0 => (.error "backoff: no tries", attempt)
  | attempt, tries_left + 1 =>
    match client attempt with
    | .ok response => (.ok response, attempt + 1)
    | .error e =>
      if tries_left = 0 then (.error e, attempt + 1)
      else backoff_retry client (attempt + 1) tries_left

/-- `get_response_from_api`: the retry wrapper applied with `max_tries=3`.
Note the wrapped body is only `client.get(api_url)` — no status check. -/
def get_response_from_api (client : Nat → Except String HttpResponse) :
    Except String HttpResponse × Nat :=
  backoff_retry client 0 3

/-- A single API call as every caller writes it:
`response = cls.get_response_from_api(...)` followed by
`response.raise_for_status()` — the status check runs outside the retry
wrapper. Returns the overall outcome and the number of underlying calls. -/
def api_call_and_raise (client : Nat → Except String HttpResponse) :
    Except String HttpResponse × Nat :=
  ((get_response_from_api client).1.bind raise_for_status, (get_response_from_api client).2)

/-- A parsed page of the paginated `/courses/` response: `results`, the
`next` URL and the total `count` (both may be JSON null / absent). -/
structure ApiPage (α : Type) where
  results : List α
  next : Option String
  count : Option Nat
deriving DecidableEq

/-- `get_api_reponse` (source spelling): call the API for one URL and return
`(results, next, count)`. `api` abstracts a successfully parsed response per
URL; transport failures are the subject of `get_response_from_api`. -/
def get_api_reponse {α : Type} (api : String → ApiPage α) (api_url : String) :
    List α × Option String × Option Nat :=
  ((api api_url).results, (api api_url).next, (api api_url).count)

/-- The `while next_url:` loop of the `courses` generator; `fuel` bounds the
number of follow-up queries (the Python loop is unbounded), and theorems
assume the `next`-chain terminates within `fuel`. -/
def courses_loop {α : Type} (api : String → ApiPage α) : Option String → Nat → List (List α)
  | none, _ => []
  | some _, 0 => []
  | some next_url, fuel + 1 =>
    (get_api_reponse api next_url).1 :: courses_loop api (get_api_reponse api next_url).2.1 fuel

/-- The `courses(timestamp)` generator: one initial query (the timestamp is
baked into `initial_url`), yield its results page, then follow `next` until
no next pointer remains, yielding one page per query. -/
def courses {α : Type} (api : String → ApiPage α) (fuel : Nat) (initial_url : String) :
    List (List α) :=
  (get_api_reponse api initial_url).1 ::
    courses_loop api (get_api_reponse api initial_url).2.1 fuel

/-- Modelled from the spec: "issue an initial query and yield its result page;
follow the response's next pointer, issuing additional queries and yielding
each page, until no next pointer remains". Defined (`some`) exactly when the
next-chain reaches a null `next` within `fuel` follow-ups. -/
def spec_page_chain {α : Type} (api : String → ApiPage α) : Nat → String → Option (List (List α))
  | 0, url =>
    match (api url).next with
    | none => some [(api url).results]
    | some _ => none
  | fuel + 1, url =>
    match (api url).next with
    | none => some [(api url).results]
    | some next_url => (spec_page_chain api fuel next_url).map ((api url).results :: ·)

/-- The chunk loop of `import_courses_metadata`: per chunk, fetch the remote
data (`fetch_chunk` abstracts `get_api_client` + `fetch_courses_details`; an
`.error` is a raised, retry-exhausted exception), process it and store the
result. A failure propagates and the remaining chunks are never reached. -/
def import_chunks_loop
    (fetch_chunk : List String → Except String (List CourseMetadata × List (String × String))) :
    List (List String) → List (String × CourseData) → Except String (List (String × CourseData))
  | [], db => .ok db
  | chunk :: rest, db =>
    match fetch_chunk chunk with
    | .error e => .error e
    | .ok (courses_details, courserun_with_course_uuids) =>
      match process_courses_details courses_details courserun_with_course_uuids with
      | .error e => .error e
      | .ok processed => import_chunks_loop fetch_chunk rest (store_courses_details processed db)

/-- `import_courses_metadata(courserun_locators)` over a store `db`. -/
def import_courses_metadata
    (fetch_chunk : List String → Except String (List CourseMetadata × List (String × String)))
    (courserun_keys : List String) (db : List (String × CourseData)) :
    Except String (List (String × CourseData)) :=
  import_chunks_loop fetch_chunk (chunks courserun_keys 50) db

/-- The value of the last binding of `q` in an association list, if any:
the value a Python dict built by the `dictInsert` loop ends up holding. -/
def lookupLast {β : Type} : List (String × β) → String → Option β
  | [], _ => none
  | (k1, v) :: rest, q =>
    match lookupLast rest q with
    | some w => some w
    | none => if k1 = q then some v else none

/-- A three-page API serving 120 records at page size 50, for the spec's
pagination example. -/
def examplePagedApi : String → ApiPage Nat := fun url =>
  if url = "page1" then { results := List.range 50, next := some "page2", count := some 120 }
  else if url = "page2" then { results := List.range' 50 50, next := some "page3", count := some 120 }
  else { results := List.range' 100 20, next := none, count := some 120 }

/-- The spec's exec-ed example record: `additional_metadata` carries the three
dates, while `course_runs` (with seats) is also present and must be ignored. -/
def execEdCourseExample : CourseMetadata :=
  { uuid := "uuid-1",
    course_type := some "executive-education-2u",
    product_source := some { slug := some "2u" },
    course_runs := [{ key := "course-v1:edX+DemoX+1",
                      seats := some [[("type", some "audit"), ("upgrade_deadline", some "2023-12-01")]],
                      start := some "2023-10-01", end_ := some "2023-11-01" }],
    additional_metadata := some { registration_deadline := some "2024-03-01",
                                  start_date := some "2024-04-01",
                                  end_date := some "2024-05-01" } }

/-- A sample stored record used in concrete witnesses. -/
def sampleCourseData : CourseData :=
  { course_type := "verified", product_source := some "edx", enroll_by := some "2024-02-01",
    start_date := some "2024-01-01", end_date := some "2024-06-01" }

/-! ### Lemmas about dictionaries and the store -/

theorem dictLookup_dictInsert {β : Type} (d : List (String × β)) (k q : String) (v : β) :
    dictLookup (dictInsert d k v) q = if k = q then some v else dictLookup d q := by
  induction d with
  | nil => simp [dictInsert, dictLookup]
  | cons p rest ih =>
    obtain ⟨k1, v1⟩ := p
    by_cases h1 : k1 = k
    · subst h1
      simp only [dictInsert, if_pos rfl, dictLookup]
      by_cases h2 : k1 = q
      · subst h2; simp
      · simp [h2]
    · simp only [dictInsert, if_neg h1, dictLookup]
      by_cases h2 : k1 = q
      · subst h2
        have hkq : ¬(k = k1) := fun hc => h1 hc.symm
        simp [hkq]
      · simp [h2, ih]

theorem keys_dictInsert {β : Type} (d : List (String × β)) (k : String) (v : β) :
    (dictInsert d k v).map Prod.fst = d.map Prod.fst ∨
    (dictInsert d k v).map Prod.fst = d.map Prod.fst ++ [k] := by
  induction d with
  | nil => exact Or.inr rfl
  | cons p rest ih =>
    obtain ⟨k1, v1⟩ := p
    by_cases h1 : k1 = k
    · subst h1
      simp [dictInsert]
    · simp only [dictInsert, if_neg h1, List.map_cons]
      rcases ih with h | h
      · exact Or.inl (by rw [h])
      · exact Or.inr (by rw [h]; rfl)

theorem mem_keys_dictInsert {β : Type} (d : List (String × β)) (k q : String) (v : β)
    (h : q ∈ (dictInsert d k v).map Prod.fst) : q = k ∨ q ∈ d.map Prod.fst := by
  rcases keys_dictInsert d k v with hk | hk
  · rw [hk] at h
    exact Or.inr h
  · rw [hk] at h
    rcases List.mem_append.mp h with h2 | h2
    · exact Or.inr h2
    · exact Or.inl (by simpa using h2)

theorem dictLookup_store_courses_details (p : List (String × CourseData))
    (db : List (String × CourseData)) (q : String) :
    dictLookup (store_courses_details p db) q =
      match lookupLast p q with
      | some v => some v
      | none => dictLookup db q := by
  induction p generalizing db with
  | nil => rfl
  | cons x rest ih =>
    obtain ⟨k, v⟩ := x
    simp only [store_courses_details, lookupLast, ih, dictLookup_dictInsert]
    cases lookupLast rest q with
    | some w => rfl
    | none =>
      by_cases hk : k = q
      · simp [hk]
      · simp [hk]

theorem lookupLast_eq_none {β : Type} (d : List (String × β)) (q : String)
    (h : dictLookup d q = none) : lookupLast d q = none := by
  induction d with
  | nil => rfl
  | cons p rest ih =>
    obtain ⟨k1, v1⟩ := p
    simp only [dictLookup] at h
    by_cases h1 : k1 = q
    · simp [h1] at h
    · rw [if_neg h1] at h
      simp only [lookupLast, ih h]
      rw [if_neg h1]

theorem process_loop_lookup_none (cds : List CourseMetadata) :
    ∀ (m : List (String × String)) (k : String) (acc out : List (String × CourseData)),
      (∀ p ∈ m, p.1 = k → processOne cds k p.2 = .ok none) →
      process_courses_details_loop cds m acc = .ok out →
      dictLookup acc k = none →
      dictLookup out k = none
  | [], k, acc, out, hall, hout, hacc => by
    simp only [process_courses_details_loop] at hout
    injection hout with h1
    rw [← h1]
    exact hacc
  | (k1, u1) :: rest, k, acc, out, hall, hout, hacc => by
    simp only [process_courses_details_loop] at hout
    split at hout
    · exact absurd hout (by simp)
    · exact process_loop_lookup_none cds rest k acc out
        (fun p hp hpk => hall p (List.mem_cons_of_mem _ hp) hpk) hout hacc
    · rename_i cd heq
      by_cases hk1 : k1 = k
      · subst hk1
        rw [hall (k1, u1) (List.mem_cons_self _ _) rfl] at heq
        exact absurd heq (by simp)
      · exact process_loop_lookup_none cds rest k (dictInsert acc k1 cd) out
          (fun p hp hpk => hall p (List.mem_cons_of_mem _ hp) hpk) hout
          (by rw [dictLookup_dictInsert, if_neg hk1]; exact hacc)

theorem process_loop_keys (cds : List CourseMetadata) :
    ∀ (m : List (String × String)) (acc out : List (String × CourseData)) (q : String),
      process_courses_details_loop cds m acc = .ok out →
      q ∈ out.map Prod.fst →
      q ∈ m.map Prod.fst ∨ q ∈ acc.map Prod.fst
  | [], acc, out, q, hout, hq => by
    simp only [process_courses_details_loop] at hout
    injection hout with h1
    rw [← h1] at hq
    exact Or.inr hq
  | (k1, u1) :: rest, acc, out, q, hout, hq => by
    simp only [process_courses_details_loop] at hout
    split at hout
    · exact absurd hout (by simp)
    · rcases process_loop_keys cds rest acc out q hout hq with h | h
      · exact Or.inl (by simp only [List.map_cons, List.mem_cons]; exact Or.inr h)
      · exact Or.inr h
    · rename_i cd heq
      rcases process_loop_keys cds rest _ out q hout hq with h | h
      · exact Or.inl (by simp only [List.map_cons, List.mem_cons]; exact Or.inr h)
      · rcases mem_keys_dictInsert acc k1 q cd h with h2 | h2
        · exact Or.inl (by simp only [List.map_cons, List.mem_cons]; exact Or.inl h2)
        · exact Or.inr h2

theorem fetch_loop_keys (courserun_keys : List String) :
    ∀ (results : List CourseRunResult) (acc : List (String × String)) (q : String),
      q ∈ (fetch_course_uuids_loop courserun_keys results acc).map Prod.fst →
      q ∈ courserun_keys ∨ q ∈ acc.map Prod.fst
  | [], _, _, hq => Or.inr hq
  | ⟨none, _⟩ :: rest, acc, q, hq => by
    simp only [fetch_course_uuids_loop] at hq
    exact fetch_loop_keys courserun_keys rest acc q hq
  | ⟨some ck, uu⟩ :: rest, acc, q, hq => by
    simp only [fetch_course_uuids_loop] at hq
    by_cases hmem : ck ∈ courserun_keys
    · rw [if_pos hmem] at hq
      rcases fetch_loop_keys courserun_keys rest _ q hq with h | h
      · exact Or.inl h
      · rcases mem_keys_dictInsert acc ck q uu h with h2 | h2
        · exact Or.inl (by rw [h2]; exact hmem)
        · exact Or.inr h2
    · rw [if_neg hmem] at hq
      exact fetch_loop_keys courserun_keys rest acc q hq

/-! ### Lemmas about chunking -/

theorem range'_shift (cs t : Nat) : ∀ (n s : Nat),
    List.range' (s + t) n cs = (List.range' s n cs).map (· + t)
  | 0, _ => rfl
  | n + 1, s => by
    rw [List.range'_succ, List.range'_succ, List.map_cons]
    have h1 : s + t + cs = (s + cs) + t := by omega
    rw [h1, range'_shift cs t n (s + cs)]

theorem chunks_nil {α : Type} (cs : Nat) (hcs : 0 < cs) : chunks ([] : List α) cs = [] := by
  unfold chunks
  have h0 : (List.length ([] : List α) + cs - 1) / cs = 0 := by
    rw [List.length_nil]
    exact Nat.div_eq_of_lt (by omega)
  rw [h0]
  rfl

theorem chunks_cons {α : Type} (cs : Nat) (hcs : 0 < cs) (keys : List α) (hne : keys ≠ []) :
    chunks keys cs = keys.take cs :: chunks (keys.drop cs) cs := by
  have hlen : 1 ≤ keys.length := List.length_pos.mpr hne
  have hm : (keys.length + cs - 1) / cs = (keys.length - 1) / cs + 1 := by
    have h1 : keys.length + cs - 1 = (keys.length - 1) + cs := by omega
    rw [h1, Nat.add_div_right _ hcs]
  have hm2 : ((keys.drop cs).length + cs - 1) / cs = (keys.length - 1) / cs := by
    rw [List.length_drop]
    rcases Nat.le_total cs keys.length with hle | hle
    · have h2 : keys.length - cs + cs - 1 = keys.length - 1 := by omega
      rw [h2]
    · have h2 : keys.length - cs + cs - 1 = cs - 1 := by omega
      rw [h2, Nat.div_eq_of_lt (show cs - 1 < cs by omega),
        Nat.div_eq_of_lt (show keys.length - 1 < cs by omega)]
  unfold chunks
  rw [hm, hm2, List.range'_succ, List.map_cons, List.drop_zero]
  congr 1
  rw [range'_shift cs cs ((keys.length - 1) / cs) 0, List.map_map]
  congr 1
  funext i
  simp [Function.comp, List.drop_drop, Nat.add_comm]

theorem chunks_flatten {α : Type} (cs : Nat) (hcs : 0 < cs) (keys : List α) :
    (chunks keys cs).flatten = keys := by
  generalize hn : keys.length = n
  induction n using Nat.strong_induction_on generalizing keys with
  | _ n ih =>
    cases keys with
    | nil => rw [chunks_nil cs hcs]; rfl
    | cons x xs =>
      rw [chunks_cons cs hcs _ (by simp), List.flatten_cons]
      have hlt : ((x :: xs).drop cs).length < n := by
        rw [List.length_drop]
        subst hn
        simp only [List.length_cons]
        omega
      rw [ih _ hlt _ rfl]
      exact List.take_append_drop cs (x :: xs)

/-! ### Lemmas about pagination -/

theorem courses_eq_spec_chain {α : Type} (api : String → ApiPage α) :
    ∀ (fuel : Nat) (url : String) (ps : List (List α)),
      spec_page_chain api fuel url = some ps → courses api fuel url = ps
  | 0, url, ps, h => by
    simp only [spec_page_chain] at h
    split at h
    · rename_i hn
      injection h with h1
      subst h1
      simp only [courses, get_api_reponse, courses_loop, hn]
    · exact absurd h (by simp)
  | fuel + 1, url, ps, h => by
    simp only [spec_page_chain] at h
    split at h
    · rename_i hn
      injection h with h1
      subst h1
      simp only [courses, get_api_reponse, courses_loop, hn]
    · rename_i nu heq
      cases hc : spec_page_chain api fuel nu with
      | none => rw [hc] at h; exact absurd h (by simp)
      | some ps2 =>
        rw [hc] at h
        simp only [Option.map] at h
        injection h with h1
        subst h1
        have hrec := courses_eq_spec_chain api fuel nu ps2 hc
        simp only [courses, get_api_reponse] at hrec
        simp only [courses, get_api_reponse, courses_loop, heq]
        exact congrArg (List.cons (api url).results) hrec

/-! ### Lemmas about the retry wrapper -/

theorem backoff_retry_attempts_le (client : Nat → Except String HttpResponse) :
    ∀ (tries start : Nat), (backoff_retry client start tries).2 ≤ start + tries
  | 0, start => Nat.le_refl start
  | tries + 1, start => by
    simp only [backoff_retry]
    split
    · show start + 1 ≤ start + (tries + 1)
      omega
    · split
      · show start + 1 ≤ start + (tries + 1)
        omega
      · exact Nat.le_trans (backoff_retry_attempts_le client tries (start + 1)) (by omega)

/-! ### Lemmas about the seat sort -/

theorem firstMaxBy_all_zero {α : Type} (k : α → Nat) (l : List α)
    (h : ∀ x ∈ l, k x = 0) : firstMaxBy k l = l.head? := by
  induction l with
  | nil => rfl
  | cons x xs ih =>
    have hx : k x = 0 := h x (List.mem_cons_self x xs)
    have hxs : ∀ y ∈ xs, k y = 0 := fun y hy => h y (List.mem_cons_of_mem x hy)
    simp only [firstMaxBy, ih hxs]
    cases hh : xs.head? with
    | none => rfl
    | some y =>
      have hy : k y = 0 := hxs y (List.mem_of_mem_head? hh)
      simp [hx, hy]

theorem sort_key_eq_seatPriority (s : JDict) (h : (dictLookup s "type").isSome) :
    sort_key s = .ok (seatPriority s) := by
  unfold sort_key seatPriority
  cases hv : dictLookup s "type" with
  | none => simp [hv] at h
  | some v =>
    cases v with
    | none => simp
    | some t =>
      by_cases h1 : t = "verified"
      · subst h1; rfl
      by_cases h2 : t = "professional"
      · subst h2; rfl
      by_cases h3 : t = "no-id-professional"
      · subst h3; rfl
      by_cases h4 : t = "unpaid-executive-education"
      · subst h4; rfl
      by_cases h5 : t = "audit"
      · subst h5; rfl
      have hmem : t ∉ BEST_MODE_ORDER := by
        simp [BEST_MODE_ORDER, h1, h2, h3, h4, h5]
      simp [hmem, h1, h2, h3, h4, h5]

theorem seatSortKeys_ok (ss : List JDict) (h : ∀ s ∈ ss, (dictLookup s "type").isSome) :
    seatSortKeys ss = .ok (ss.map fun s => (seatPriority s, s)) := by
  induction ss with
  | nil => rfl
  | cons s rest ih =>
    have hs : (dictLookup s "type").isSome := h s (List.mem_cons_self s rest)
    have hrest : ∀ x ∈ rest, (dictLookup x "type").isSome :=
      fun x hx => h x (List.mem_cons_of_mem s hx)
    simp [seatSortKeys, sort_key_eq_seatPriority s hs, ih hrest, bind, Except.bind]

theorem head?_insertDesc {α : Type} (k : α → Nat) (x : α) (l : List α) :
    (insertDesc k x l).head? =
      match l.head? with
      | none => some x
      | some y => if k y > k x then some y else some x := by
  cases l with
  | nil => rfl
  | cons y ys =>
    by_cases hk : k y > k x
    · simp [insertDesc, hk]
    · simp [insertDesc, hk]

theorem insertDesc_ne_nil {α : Type} (k : α → Nat) (x : α) (l : List α) :
    insertDesc k x l ≠ [] := by
  cases l with
  | nil => simp [insertDesc]
  | cons y ys =>
    simp only [insertDesc]
    split <;> simp

theorem sortDesc_eq_nil {α : Type} (k : α → Nat) (l : List α) (h : sortDesc k l = []) :
    l = [] := by
  cases l with
  | nil => rfl
  | cons x xs => exact absurd h (insertDesc_ne_nil k x (sortDesc k xs))

theorem head?_sortDesc {α : Type} (k : α → Nat) (l : List α) :
    (sortDesc k l).head? = firstMaxBy k l := by
  induction l with
  | nil => rfl
  | cons x xs ih =>
    simp only [sortDesc, head?_insertDesc, ih, firstMaxBy]

theorem firstMaxBy_map_decorate {α : Type} (k : α → Nat) (l : List α) :
    firstMaxBy (fun p => p.1) (l.map fun s => (k s, s)) =
      (firstMaxBy k l).map fun s => (k s, s) := by
  induction l with
  | nil => rfl
  | cons x xs ih =>
    simp only [List.map, firstMaxBy, ih]
    cases h : firstMaxBy k xs with
    | none => simp
    | some y =>
      simp only [Option.map]
      split <;> simp

theorem find_best_mode_seat_eq_firstMax (ss : List JDict)
    (h : ∀ s ∈ ss, (dictLookup s "type").isSome) :
    find_best_mode_seat (some ss) = .ok (firstMaxBy seatPriority ss) := by
  have hhead := head?_sortDesc (fun p : Nat × JDict => p.1) (ss.map fun s => (seatPriority s, s))
  rw [firstMaxBy_map_decorate seatPriority ss] at hhead
  simp only [find_best_mode_seat]
  split
  · rename_i e hks
    rw [seatSortKeys_ok ss h] at hks
    simp at hks
  · rename_i keyed hks
    rw [seatSortKeys_ok ss h] at hks
    injection hks with hk
    subst hk
    split
    · rename_i hsort
      rw [hsort] at hhead
      simp only [List.head?] at hhead
      cases hfm : firstMaxBy seatPriority ss with
      | none => rfl
      | some y => rw [hfm] at hhead; simp at hhead
    · rename_i p ps hsort
      rw [hsort] at hhead
      simp only [List.head?] at hhead
      cases hfm : firstMaxBy seatPriority ss with
      | none => rw [hfm] at hhead; simp at hhead
      | some y =>
        rw [hfm] at hhead
        simp only [Option.map] at hhead
        injection hhead with hp
        subst hp
        rfl

/-! ### Claim theorems -/

/-- C1 (counterexample): for a nonempty seat list all of whose seat types are
unknown modes, `find_best_mode_seat` returns the first seat — not `None` as
the claim states: with the single seat `{type: "honor"}` it returns that
seat (all weights are 0 and the stable sort keeps list order). -/
theorem claim_C1_counterexample :
    find_best_mode_seat (some [[("type", some "honor")]]) =
      .ok (some [("type", some "honor")])
    ∧ find_best_mode_seat (some [[("type", some "honor")]]) ≠ .ok none :=
  ⟨rfl, fun hcontra => by
    rw [show find_best_mode_seat (some [[("type", some "honor")]]) =
        .ok (some [("type", some "honor")]) from rfl] at hcontra
    injection hcontra with h1
    exact Option.noConfusion h1⟩

/-- C1 (amended): for seat lists whose seats all carry a `type` key,
`find_best_mode_seat` returns the first seat attaining the maximal mode
priority (verified=5 > professional=4 > no-id-professional=3 >
unpaid-executive-education=2 > audit=1 > unknown=0): with at least one known
mode this is the highest-priority seat, ties resolved by first occurrence in
the input; the empty list yields `None`; a nonempty list with only unknown
modes yields its first seat (not `None`). -/
theorem claim_C1_best_mode_selection (ss : List JDict)
    (h : ∀ s ∈ ss, (dictLookup s "type").isSome) :
    find_best_mode_seat (some ss) = .ok (firstMaxBy seatPriority ss)
    ∧ (ss = [] → find_best_mode_seat (some ss) = .ok none)
    ∧ ((∀ s ∈ ss, seatPriority s = 0) →
        find_best_mode_seat (some ss) = .ok ss.head?) := by
  refine ⟨find_best_mode_seat_eq_firstMax ss h, ?_, ?_⟩
  · intro he
    subst he
    rfl
  · intro hz
    rw [find_best_mode_seat_eq_firstMax ss h, firstMaxBy_all_zero seatPriority ss hz]

/-- C1 (witness): the spec's example — an audit seat then a verified seat —
selects the verified seat. -/
theorem claim_C1_witness :
    (∀ s ∈ ([[("type", some "audit"), ("upgrade_deadline", some "2024-01-01")],
             [("type", some "verified"), ("upgrade_deadline", some "2024-02-01")]] : List JDict),
        (dictLookup s "type").isSome)
    ∧ find_best_mode_seat (some
        [[("type", some "audit"), ("upgrade_deadline", some "2024-01-01")],
         [("type", some "verified"), ("upgrade_deadline", some "2024-02-01")]]) =
      .ok (some [("type", some "verified"), ("upgrade_deadline", some "2024-02-01")]) := by
  refine ⟨by decide, ?_⟩
  rw [(claim_C1_best_mode_selection _ (by decide)).1]
  rfl

/-- C10: `find_best_mode_seat` is total on seat lists whose dictionaries all
have a `type` key; a seat dictionary without `type` raises `KeyError`
instead of counting as an unknown mode, and a JSON-null `seats` value raises
`TypeError` instead of returning `None`. -/
theorem claim_C10_type_key_required :
    (∀ ss : List JDict, (∀ s ∈ ss, (dictLookup s "type").isSome) →
        ∃ r, find_best_mode_seat (some ss) = .ok r)
    ∧ find_best_mode_seat (some [[("upgrade_deadline", some "2024-01-01")]]) =
        .error "KeyError: type"
    ∧ find_best_mode_seat none = .error "TypeError: NoneType object is not iterable" :=
  ⟨fun ss h => ⟨firstMaxBy seatPriority ss, find_best_mode_seat_eq_firstMax ss h⟩, rfl, rfl⟩

/-- C10 (witness): a well-formed singleton seat list succeeds. -/
theorem claim_C10_witness :
    ∃ r, find_best_mode_seat (some [[("type", some "audit")]]) = .ok r :=
  claim_C10_type_key_required.1 [[("type", some "audit")]] (by decide)

/-- C5: chunking with chunk size 50 yields `ceil(N/50)` chunks, each of
length at most 50, and their concatenation in order restores the input list
(hence order and multiset of elements are preserved). -/
theorem claim_C5_chunking {α : Type} (keys : List α) :
    (chunks keys 50).length = (keys.length + 50 - 1) / 50
    ∧ (∀ c ∈ chunks keys 50, c.length ≤ 50)
    ∧ (chunks keys 50).flatten = keys := by
  refine ⟨by simp [chunks], ?_, chunks_flatten 50 (by omega) keys⟩
  intro c hc
  simp only [chunks, List.mem_map] at hc
  obtain ⟨i, hi, rfl⟩ := hc
  rw [List.length_take]
  exact Nat.min_le_left _ _

/-- C5 (witness): a three-element list forms one chunk of length at most
50. -/
theorem claim_C5_witness :
    (["a", "b", "c"] : List String) ∈ chunks ["a", "b", "c"] 50
    ∧ (["a", "b", "c"] : List String).length ≤ 50 :=
  ⟨by decide, (claim_C5_chunking ["a", "b", "c"]).2.1 _ (by decide)⟩

/-- C8: upsert stores the new value for its key (insert if absent, full
overwrite of all fields otherwise), leaves every other key unchanged, and
storing the same processed payload twice leaves every stored record equal to
storing it once (idempotence). -/
theorem claim_C8_store_idempotent :
    (∀ (db : List (String × CourseData)) (k : String) (d : CourseData),
        dictLookup (dictInsert db k d) k = some d)
    ∧ (∀ (db : List (String × CourseData)) (k q : String) (d : CourseData), k ≠ q →
        dictLookup (dictInsert db k d) q = dictLookup db q)
    ∧ (∀ (p db : List (String × CourseData)) (q : String),
        dictLookup (store_courses_details p (store_courses_details p db)) q =
          dictLookup (store_courses_details p db) q) := by
  refine ⟨?_, ?_, ?_⟩
  · intro db k d
    rw [dictLookup_dictInsert, if_pos rfl]
  · intro db k q d hkq
    rw [dictLookup_dictInsert, if_neg hkq]
  · intro p db q
    rw [dictLookup_store_courses_details p (store_courses_details p db) q,
      dictLookup_store_courses_details p db q]
    cases h : lookupLast p q with
    | some w => rfl
    | none => rfl

/-- C8 (witness): upserting a record into an empty store leaves other keys
unchanged and makes the record retrievable. -/
theorem claim_C8_witness :
    dictLookup (dictInsert [] "course-v1:edX+DemoX+1" sampleCourseData) "other-key" =
      dictLookup ([] : List (String × CourseData)) "other-key"
    ∧ dictLookup (dictInsert [] "course-v1:edX+DemoX+1" sampleCourseData)
        "course-v1:edX+DemoX+1" = some sampleCourseData :=
  ⟨claim_C8_store_idempotent.2.1 [] _ _ sampleCourseData (by decide),
   claim_C8_store_idempotent.1 [] _ sampleCourseData⟩

/-- C3: the two extraction paths never mix. When the matched record's course
type is exec-ed or bootcamp, the produced record is a function of the
record's `course_type`, `product_source` and `additional_metadata` only
(dates null when the latter is absent) — `course_runs`/`seats` do not occur
in the formula, so they are ignored. Otherwise, when a course run matches the
key, the record is a function of the top-level fields, the matched run and
its best seat only — `additional_metadata` does not occur. -/
theorem claim_C3_two_extraction_paths (cds : List CourseMetadata) (k u : String)
    (cm : CourseMetadata)
    (hm : find_attr (fun c => c.uuid) u cds = some cm) :
    ((cm.course_type.getD "" = EXEC_ED_COURSE_TYPE ∨ cm.course_type.getD "" = BOOTCAMP_2U) →
      processOne cds k u = .ok (some
        { course_type := cm.course_type.getD "",
          product_source :=
            match cm.product_source with
            | none => some ""
            | some ps => ps.slug,
          enroll_by :=
            match cm.additional_metadata with
            | some am => am.registration_deadline
            | none => none,
          start_date :=
            match cm.additional_metadata with
            | some am => am.start_date
            | none => none,
          end_date :=
            match cm.additional_metadata with
            | some am => am.end_date
            | none => none }))
    ∧ (¬(cm.course_type.getD "" = EXEC_ED_COURSE_TYPE ∨ cm.course_type.getD "" = BOOTCAMP_2U) →
        ∀ cr : CourseRun, find_attr (fun r => r.key) k cm.course_runs = some cr →
        processOne cds k u = Except.map (fun seat => some
          { course_type := cm.course_type.getD "",
            product_source :=
              match cm.product_source with
              | none => some ""
              | some ps => ps.slug,
            enroll_by :=
              match seat with
              | some s => (dictLookup s "upgrade_deadline").join
              | none => none,
            start_date := cr.start,
            end_date := cr.end_ }) (find_best_mode_seat cr.seats)) := by
  constructor
  · intro hex
    simp only [processOne, hm]
    rw [if_pos hex]
    cases ha : cm.additional_metadata with
    | some am => rfl
    | none => rfl
  · intro hnex cr hcr
    simp only [processOne, hm]
    rw [if_neg hnex]
    simp only [hcr]
    cases hs : find_best_mode_seat cr.seats with
    | error e => rfl
    | ok seat => rfl

/-- C3 (witness): the spec's exec-ed example — dates come from
`additional_metadata` even though a course run with seats is present. -/
theorem claim_C3_witness :
    execEdCourseExample.course_runs ≠ []
    ∧ processOne [execEdCourseExample] "course-v1:edX+DemoX+1" "uuid-1" =
      .ok (some { course_type := "executive-education-2u", product_source := some "2u",
                  enroll_by := some "2024-03-01", start_date := some "2024-04-01",
                  end_date := some "2024-05-01" }) := by
  constructor
  · decide
  · have h := (claim_C3_two_extraction_paths [execEdCourseExample]
      "course-v1:edX+DemoX+1" "uuid-1" execEdCourseExample rfl).1 (Or.inl rfl)
    exact h.trans (by rfl)

/-- C4: a requested key with no matching remote course record — or, for a
standard course type, no matching course run inside the matched record — is
skipped: the loop body yields no record, the processed dict has no entry for
the key, and storing then leaves the store unchanged at that key. -/
theorem claim_C4_skip_semantics :
    (∀ (cds : List CourseMetadata) (k u : String),
        find_attr (fun c => c.uuid) u cds = none → processOne cds k u = .ok none)
    ∧ (∀ (cds : List CourseMetadata) (k u : String) (cm : CourseMetadata),
        find_attr (fun c => c.uuid) u cds = some cm →
        ¬(cm.course_type.getD "" = EXEC_ED_COURSE_TYPE ∨ cm.course_type.getD "" = BOOTCAMP_2U) →
        find_attr (fun r => r.key) k cm.course_runs = none →
        processOne cds k u = .ok none)
    ∧ (∀ (cds : List CourseMetadata) (m : List (String × String)) (k : String)
        (out : List (String × CourseData)),
        (∀ p ∈ m, p.1 = k → processOne cds k p.2 = .ok none) →
        process_courses_details cds m = .ok out →
        dictLookup out k = none)
    ∧ (∀ (out db : List (String × CourseData)) (k : String),
        dictLookup out k = none →
        dictLookup (store_courses_details out db) k = dictLookup db k) := by
  refine ⟨?_, ?_, ?_, ?_⟩
  · intro cds k u hf
    simp only [processOne, hf]
  · intro cds k u cm hf hnex hcr
    simp only [processOne, hf]
    rw [if_neg hnex]
    simp only [hcr]
  · intro cds m k out hall hout
    exact process_loop_lookup_none cds m k [] out hall hout rfl
  · intro out db k hnone
    rw [dictLookup_store_courses_details out db k, lookupLast_eq_none out k hnone]

/-- C4 (witness): with no remote records the key produces no record, and a
store write of an empty processed dict changes nothing. -/
theorem claim_C4_witness :
    processOne [] "course-v1:edX+DemoX+1" "uuid-1" = .ok none
    ∧ dictLookup (store_courses_details [] [("db-key", sampleCourseData)]) "absent-key" =
        dictLookup [("db-key", sampleCourseData)] "absent-key" :=
  ⟨claim_C4_skip_semantics.1 [] _ _ rfl,
   claim_C4_skip_semantics.2.2.2 [] [("db-key", sampleCourseData)] "absent-key" rfl⟩

/-- C7: every produced record's `product_source` is the matched record's
`product_source.slug` when the object is present, and the empty string when
it is absent (or JSON null). -/
theorem claim_C7_product_source (cds : List CourseMetadata) (k u : String)
    (cm : CourseMetadata) (cd : CourseData)
    (hm : find_attr (fun c => c.uuid) u cds = some cm)
    (hp : processOne cds k u = .ok (some cd)) :
    cd.product_source =
      match cm.product_source with
      | none => some ""
      | some ps => ps.slug := by
  simp only [processOne, hm] at hp
  by_cases hex : cm.course_type.getD "" = EXEC_ED_COURSE_TYPE
      ∨ cm.course_type.getD "" = BOOTCAMP_2U
  · rw [if_pos hex] at hp
    cases ha : cm.additional_metadata with
    | some am =>
      simp only [ha] at hp
      injection hp with h1
      injection h1 with h2
      rw [← h2]
    | none =>
      simp only [ha] at hp
      injection hp with h1
      injection h1 with h2
      rw [← h2]
  · rw [if_neg hex] at hp
    cases hcr : find_attr (fun r => r.key) k cm.course_runs with
    | none =>
      simp only [hcr] at hp
      injection hp with h1
      exact Option.noConfusion h1
    | some cr =>
      simp only [hcr] at hp
      cases hs : find_best_mode_seat cr.seats with
      | error e =>
        simp only [hs] at hp
        exact Except.noConfusion hp
      | ok seat =>
        simp only [hs] at hp
        injection hp with h1
        injection h1 with h2
        rw [← h2]

/-- C7 (witness): the exec-ed example record stores `product_source` "2u",
the slug of its `product_source` object. -/
theorem claim_C7_witness :
    ({ course_type := "executive-education-2u", product_source := some "2u",
       enroll_by := some "2024-03-01", start_date := some "2024-04-01",
       end_date := some "2024-05-01" } : CourseData).product_source =
      match execEdCourseExample.product_source with
      | none => some ""
      | some ps => ps.slug :=
  claim_C7_product_source [execEdCourseExample] "course-v1:edX+DemoX+1" "uuid-1"
    execEdCourseExample _ rfl rfl

/-- C9: `fetch_course_uuids` returns a map whose keys all appear in the
requested courserun-key list (unrequested result entries are dropped), and
every key of the processed output comes from that map — so every processed
and stored record corresponds to a requested key. -/
theorem claim_C9_requested_keys_only :
    (∀ (courserun_keys : List String) (results : List CourseRunResult) (q : String),
        q ∈ (fetch_course_uuids courserun_keys results).map Prod.fst →
        q ∈ courserun_keys)
    ∧ (∀ (cds : List CourseMetadata) (m : List (String × String))
        (out : List (String × CourseData)) (q : String),
        process_courses_details cds m = .ok out →
        q ∈ out.map Prod.fst → q ∈ m.map Prod.fst) := by
  constructor
  · intro keys results q hq
    rcases fetch_loop_keys keys results [] q hq with h | h
    · exact h
    · simp at h
  · intro cds m out q hout hq
    rcases process_loop_keys cds m [] out q hout hq with h | h
    · exact h
    · simp at h

/-- C9 (witness): with one requested key and a response holding a requested
entry, an unrequested entry and a null-key entry, every key of the returned
map was requested. -/
theorem claim_C9_witness :
    "course-v1:edX+A+1" ∈ ["course-v1:edX+A+1"] :=
  claim_C9_requested_keys_only.1 ["course-v1:edX+A+1"]
    [⟨some "course-v1:edX+A+1", "u1"⟩, ⟨some "course-v1:edX+B+1", "u2"⟩, ⟨none, "u3"⟩]
    "course-v1:edX+A+1" (by decide)

/-- C2 (counterexample): an HTTP non-success response does not raise inside
the retry wrapper — `raise_for_status` runs on the returned response after
the wrapper — so with a client that always returns a non-2xx response the
code makes exactly one underlying call, not up to 3, before raising
`HTTPError`. -/
theorem claim_C2_counterexample :
    api_call_and_raise (fun _ => .ok { ok := false }) = (.error "HTTPError", 1) := rfl

/-- C2 (amended): every call through the wrapper makes at most 3 underlying
attempts; exceptions raised by the HTTP call itself are retried (two raised
attempts then a success yield that success on the third attempt; three raised
attempts propagate the last exception); a returned response — even a non-2xx
one — ends the wrapper after a single attempt, `raise_for_status` raising
`HTTPError` outside it without retry; an unresolved failure on the first
chunk aborts the whole import. -/
theorem claim_C2_retry_and_abort :
    (∀ client : Nat → Except String HttpResponse, (get_response_from_api client).2 ≤ 3)
    ∧ (∀ (client : Nat → Except String HttpResponse) (e0 e1 : String) (r : HttpResponse),
        client 0 = .error e0 → client 1 = .error e1 → client 2 = .ok r →
        get_response_from_api client = (.ok r, 3))
    ∧ (∀ (client : Nat → Except String HttpResponse) (e0 e1 e2 : String),
        client 0 = .error e0 → client 1 = .error e1 → client 2 = .error e2 →
        get_response_from_api client = (.error e2, 3))
    ∧ (∀ (client : Nat → Except String HttpResponse) (r : HttpResponse),
        client 0 = .ok r → get_response_from_api client = (.ok r, 1))
    ∧ (∀ (client : Nat → Except String HttpResponse) (r : HttpResponse),
        client 0 = .ok r → r.ok = false →
        api_call_and_raise client = (.error "HTTPError", 1))
    ∧ (∀ (fetch_chunk : List String →
            Except String (List CourseMetadata × List (String × String)))
        (keys : List String) (db : List (String × CourseData)) (e : String),
        keys ≠ [] → fetch_chunk (keys.take 50) = .error e →
        import_courses_metadata fetch_chunk keys db = .error e) := by
  refine ⟨?_, ?_, ?_, ?_, ?_, ?_⟩
  · intro client
    exact backoff_retry_attempts_le client 3 0
  · intro client e0 e1 r h0 h1 h2
    simp [get_response_from_api, backoff_retry, h0, h1, h2]
  · intro client e0 e1 e2 h0 h1 h2
    simp [get_response_from_api, backoff_retry, h0, h1, h2]
  · intro client r h0
    simp [get_response_from_api, backoff_retry, h0]
  · intro client r h0 hok
    simp [api_call_and_raise, get_response_from_api, backoff_retry, h0, hok,
      raise_for_status, Except.bind]
  · intro fetch_chunk keys db e hne hfetch
    unfold import_courses_metadata
    rw [chunks_cons 50 (by omega) keys hne]
    simp [import_chunks_loop, hfetch]

/-- C2 (witness): two raised attempts then a success succeed on the third
attempt, and a persistently raising fetch aborts an import with one key. -/
theorem claim_C2_witness :
    get_response_from_api
        (fun n => if n < 2 then .error "ConnectionError" else .ok { ok := true }) =
      (.ok { ok := true }, 3)
    ∧ import_courses_metadata (fun _ => .error "ConnectionError")
        ["course-v1:edX+A+1"] [] = .error "ConnectionError" :=
  ⟨claim_C2_retry_and_abort.2.1 _ "ConnectionError" "ConnectionError" _ rfl rfl rfl,
   claim_C2_retry_and_abort.2.2.2.2.2 _ ["course-v1:edX+A+1"] [] "ConnectionError"
     (by decide) rfl⟩

/-- C6: the incremental-pull generator issues the initial query, yields its
results page, then follows `next` pointers one query and one yielded page at
a time, stopping exactly after the page whose `next` is null: whenever the
spec-side page chain is defined, `courses` yields exactly it. -/
theorem claim_C6_cursor_pagination {α : Type} (api : String → ApiPage α)
    (fuel : Nat) (url : String) (ps : List (List α))
    (h : spec_page_chain api fuel url = some ps) :
    courses api fuel url = ps :=
  courses_eq_spec_chain api fuel url ps h

/-- C6 (witness): 120 records at page size 50 yield exactly 3 pages of sizes
50, 50 and 20, and the generator stops after the third page (null `next`). -/
theorem claim_C6_witness :
    spec_page_chain examplePagedApi 2 "page1" =
      some [List.range 50, List.range' 50 50, List.range' 100 20]
    ∧ courses examplePagedApi 2 "page1" =
      [List.range 50, List.range' 50 50, List.range' 100 20]
    ∧ (courses examplePagedApi 2 "page1").map List.length = [50, 50, 20] := by
  have h2 := claim_C6_cursor_pagination examplePagedApi 2 "page1"
    [List.range 50, List.range' 50 50, List.range' 100 20] (by rfl)
  refine ⟨by rfl, h2, ?_⟩
  rw [h2]
  simp

end FedContentConnector
